import Mathlib

/-!
Verification of `src/docker/llama-cpu/hugepage_mmap_wrapper.cpp`, an
LD_PRELOAD interposition layer that replaces whole-file `mmap` requests on
hugetlbfs files by populated anonymous huge-page regions.

The C code is shallowly embedded: machine pointers become `Nat` addresses
(`0` plays the role of the null hint), `size_t` lengths become `Nat`,
`off_t` offsets and file descriptors become `Int`, and every interaction
with the kernel (`fstatfs`, `fstat`, the real `mmap`/`munmap`, `lseek`,
`read`, `mprotect`, `dlsym`) is an oracle recorded in an environment
structure.  The wrapper's observable behaviour — return value, the global
allocation list, the sequence of calls made to the real primitives, and
the synthesized region's contents and final protection — is computed by
executable Lean functions that mirror the C control flow line by line.
-/

set_option autoImplicit false

namespace HugepageWrapper

/-! ## Constants (from `<sys/mman.h>` / `<linux/magic.h>` as used by the source) -/

def HUGETLBFS_MAGIC : Nat := 0x958458f6

def PROT_READ : Nat := 0x1

def PROT_WRITE : Nat := 0x2

def MAP_PRIVATE : Nat := 0x02

def MAP_ANONYMOUS : Nat := 0x20

def MAP_HUGETLB : Nat := 0x40000

/-- `PROT_READ | PROT_WRITE`, the protection used for the copy (lines 118, 126). -/
def protRW : Nat := PROT_READ ||| PROT_WRITE

/-- `MAP_PRIVATE | MAP_ANONYMOUS | MAP_HUGETLB` (line 119). -/
def anonHugeFlags : Nat := MAP_PRIVATE ||| MAP_ANONYMOUS ||| MAP_HUGETLB

/-- `MAP_PRIVATE | MAP_ANONYMOUS` (line 127, the fallback). -/
def anonFlags : Nat := MAP_PRIVATE ||| MAP_ANONYMOUS

/-- `const size_t chunk_size = 64 * 1024 * 1024` (line 151). -/
def chunk_size : Nat := 64 * 1024 * 1024

/-! ## Allocation registry (lines 36-96)

The C code keeps a singly linked list `allocations` of
`HugePageAllocation { addr, size, next }` records.  A linked list of
records is exactly a `List (Nat × Nat)` of (address, size) pairs, most
recently inserted first. -/

/-- `track_allocation` (lines 72-78): prepend a record to the list. -/
def track_allocation (regs : List (Nat × Nat)) (addr size : Nat) :
    List (Nat × Nat) :=
  (addr, size) :: regs

/-- `untrack_allocation` (lines 81-96): walk the list; on the first record
whose address matches, unlink it and return its size; if no record
matches, return 0 and leave the list as it was. -/
def untrack_allocation (regs : List (Nat × Nat)) (addr : Nat) :
    Nat × List (Nat × Nat) :=
  match regs with
  | [] => (0, [])
  | (a, s) :: rest =>
    if a = addr then (s, rest)
    else
      let r := untrack_allocation rest addr
      (r.1, (a, s) :: r.2)

/-! ## Kernel-facing effects -/

/-- A call made to one of the real primitives (or `mprotect`), as observed
by the kernel: the trace of the wrapper's externally visible actions. -/
inductive RealCall where
  | rmmap (addr len prot flags : Nat) (fd : Int) (off : Int)
  | rmunmap (addr len : Nat)
  | mprot (addr len prot : Nat)
  deriving DecidableEq, Repr

/-- What the kernel chooses to hand back from one `read` call:
an error return (`-1`), or up to `cap` bytes of the file (the kernel may
deliver fewer bytes than requested; `read` returns 0 only when no byte is
available at the cursor, i.e. end of file, or when `cap = 0` models a
spurious empty delivery). -/
inductive ReadBehavior where
  | err : ReadBehavior
  | deliver : Nat → ReadBehavior
  deriving DecidableEq, Repr

/-- The process environment seen by one intercepted call: the kernel and
libc oracles the C code consults.  `real_mmap` returning `none` models
`MAP_FAILED`; `f_type`/`st_size` returning `none` model `fstatfs`/`fstat`
failing. -/
structure Env where
  f_type : Int → Option Nat
  st_size : Int → Option Nat
  file : Int → List Nat
  real_mmap : Nat → Nat → Nat → Nat → Int → Int → Option Nat
  real_munmap : Nat → Nat → Int
  lseekRet : Int
  readSched : Nat → ReadBehavior
  mprotectRet : Int

/-- `is_hugetlbfs_fd` (lines 63-69): `fstatfs` succeeding with
`f_type == HUGETLBFS_MAGIC`; any `fstatfs` failure classifies as `false`. -/
def is_hugetlbfs_fd (env : Env) (fd : Int) : Bool :=
  match env.f_type fd with
  | some t => t == HUGETLBFS_MAGIC
  | none => false

/-! ## The intercepted `munmap` (lines 200-214) -/

/-- Observable outcome of one intercepted `munmap` call. -/
structure MunmapOutcome where
  ret : Int
  registry : List (Nat × Nat)
  calls : List RealCall
  deriving Repr

/-- `munmap` (lines 200-214): look the address up in (and remove it from)
the registry; a tracked size `> 0` reroutes to `real_munmap` with the
tracked size, otherwise the caller's arguments pass through. -/
def munmap (env : Env) (regs : List (Nat × Nat)) (addr length : Nat) :
    MunmapOutcome :=
  let r := untrack_allocation regs addr
  if 0 < r.1 then
    ⟨env.real_munmap addr r.1, r.2, [RealCall.rmunmap addr r.1]⟩
  else
    ⟨env.real_munmap addr length, r.2, [RealCall.rmunmap addr length]⟩

/-! ## The copy loop (lines 150-175)

After a successful `lseek(fd, 0, SEEK_SET)` the file cursor always equals
`total_read`, so one `read(fd, dest + total_read, to_read)` call delivers
`(file.drop total).take d` bytes, where `d` is the count `read` returns:
at most `to_read`, at most what the kernel chooses to hand over this call
(`cap`), and at most the bytes remaining after the cursor (`0` at end of
file).  `dest` accumulates the bytes written into the region so far. -/

/-- Lines 152-175: `while (total_read < length)` — request
`min (length - total_read) chunk_size` bytes; a negative return or a zero
return aborts (`none`); a positive return advances `total_read` by exactly
the returned count and retries with the remaining count. -/
def copyLoop (file : List Nat) (length : Nat) (sched : Nat → ReadBehavior)
    (k total : Nat) (dest : List Nat) : Option (List Nat) :=
  if h : total < length then
    let to_read := min (length - total) chunk_size
    match sched k with
    | ReadBehavior.err => none
    | ReadBehavior.deliver cap =>
      let d := min (min cap to_read) (file.length - total)
      if hd : d = 0 then none
      else copyLoop file length sched (k + 1) (total + d)
             (dest ++ (file.drop total).take d)
  else
    some dest
termination_by length - total
decreasing_by
  exact Nat.sub_lt_sub_left h (Nat.lt_add_of_pos_right (Nat.pos_of_ne_zero hd))

/-! ## The intercepted `mmap` (lines 99-197) -/

/-- Observable outcome of one intercepted `mmap` call: the returned value
(`none` = `MAP_FAILED`), the allocation list after the call, the trace of
calls made to the real primitives, and — when a region was synthesized —
its address, the bytes copied into it, and its final protection. -/
structure MmapOutcome where
  ret : Option Nat
  registry : List (Nat × Nat)
  calls : List RealCall
  region : Option (Nat × List Nat × Nat)
  deriving Repr

/-- Lines 108, 196: delegate to `real_mmap` with the caller's original
six arguments, touching nothing else. -/
def passthrough (env : Env) (regs : List (Nat × Nat))
    (addr length prot flags : Nat) (fd : Int) (offset : Int) : MmapOutcome :=
  ⟨env.real_mmap addr length prot flags fd offset, regs,
   [RealCall.rmmap addr length prot flags fd offset], none⟩

/-- Lines 117-137: the anonymous allocation, `MAP_HUGETLB` first and a
plain anonymous retry on failure.  Returns the address obtained (`none`
when both attempts return `MAP_FAILED`) with the trace of attempts. -/
def allocAnon (env : Env) (length : Nat) : Option Nat × List RealCall :=
  match env.real_mmap 0 length protRW anonHugeFlags (-1) 0 with
  | some mem => (some mem, [RealCall.rmmap 0 length protRW anonHugeFlags (-1) 0])
  | none =>
    (env.real_mmap 0 length protRW anonFlags (-1) 0,
     [RealCall.rmmap 0 length protRW anonHugeFlags (-1) 0,
      RealCall.rmmap 0 length protRW anonFlags (-1) 0])

/-- Lines 139-191: populate the freshly allocated region `mem`.  Seek
failure or a failed copy tears the region down with `real_munmap` and
reports `MAP_FAILED`; on success the protection is narrowed when the
caller did not ask for write access (`mprotect` failure is non-fatal) and
the allocation is tracked. -/
def populate (env : Env) (regs : List (Nat × Nat)) (length prot : Nat)
    (fd : Int) (mem : Nat) (prior : List RealCall) : MmapOutcome :=
  if env.lseekRet ≠ 0 then
    ⟨none, regs, prior ++ [RealCall.rmunmap mem length], none⟩
  else
    match copyLoop (env.file fd) length env.readSched 0 0 [] with
    | none => ⟨none, regs, prior ++ [RealCall.rmunmap mem length], none⟩
    | some dest =>
      if prot &&& PROT_WRITE = 0 then
        ⟨some mem, track_allocation regs mem length,
         prior ++ [RealCall.mprot mem length prot],
         some (mem, dest, if env.mprotectRet = 0 then prot else protRW)⟩
      else
        ⟨some mem, track_allocation regs mem length, prior,
         some (mem, dest, protRW)⟩

/-- `mmap` (lines 99-197): intercept `fd >= 0 && is_hugetlbfs_fd(fd)`
requests; a `fstat` failure falls back to the unmodified path; synthesis
activates only for `offset == 0 && length == st.st_size`. -/
def mmap (env : Env) (regs : List (Nat × Nat))
    (addr length prot flags : Nat) (fd : Int) (offset : Int) : MmapOutcome :=
  if 0 ≤ fd ∧ is_hugetlbfs_fd env fd then
    match env.st_size fd with
    | none => passthrough env regs addr length prot flags fd offset
    | some sz =>
      if offset = 0 ∧ length = sz then
        match allocAnon env length with
        | (none, tr) => ⟨none, regs, tr, none⟩
        | (some mem, tr) => populate env regs length prot fd mem tr
      else passthrough env regs addr length prot flags fd offset
  else passthrough env regs addr length prot flags fd offset

/-! ## Symbol resolution (lines 28-60) -/

/-- The cached handles `real_mmap` / `real_munmap` (lines 30, 34);
`none` models a null function pointer. -/
structure FnState where
  real_mmap : Option Nat
  real_munmap : Option Nat
  deriving DecidableEq, Repr

/-- The `dlsym(RTLD_NEXT, ...)` oracle; `none` models a null result. -/
structure FnEnv where
  dls_mmap : Option Nat
  dls_munmap : Option Nat
  deriving DecidableEq, Repr

/-- `init_functions` (lines 45-60): resolve each handle only while it is
null; a null `dlsym` result is `exit(1)`, modelled as `none`. -/
def init_functions (e : FnEnv) (s : FnState) : Option FnState :=
  match (match s.real_mmap with
         | some h => some { s with real_mmap := some h }
         | none =>
           match e.dls_mmap with
           | none => none
           | some h => some { s with real_mmap := some h }) with
  | none => none
  | some s1 =>
    match s1.real_munmap with
    | some h => some { s1 with real_munmap := some h }
    | none =>
      match e.dls_munmap with
      | none => none
      | some h => some { s1 with real_munmap := some h }

/-! ## Library-detachment cleanup (lines 224-232) -/

/-- The process-wide state the destructor can see: the bound primitive
pair and the allocation list. -/
structure Global where
  fns : FnState
  allocations : List (Nat × Nat)
  deriving Repr

/-- The `while (allocations) { ... free(allocations); ... }` walk of
lines 227-231: every node is unlinked and freed. -/
def cleanupLoop : List (Nat × Nat) → List (Nat × Nat)
  | [] => []
  | _ :: rest => cleanupLoop rest

/-- `cleanup` (lines 225-232): drain the allocation list; no call to any
real primitive is made (the trace component is the list of such calls). -/
def cleanup (g : Global) : Global × List RealCall :=
  ({ g with allocations := cleanupLoop g.allocations }, [])

/-! ## `track_allocation` under concurrent execution (lines 72-78)

`track_allocation` performs exactly two accesses to the shared head
pointer `allocations`, with no lock around them:

    alloc->next = allocations;   // load of the shared head
    allocations = alloc;         // store of the shared head

(the `malloc` and the two field writes before the load touch only the
thread-private fresh node).  A thread executing the function is therefore
a program of two atomic shared-memory operations; interleaving two such
threads explores what two unsynchronized callers can do to the list. -/

/-- The two shared-memory accesses of one `track_allocation` call. -/
inductive InsOp where
  | load
  | store
  deriving DecidableEq, Repr

/-- One thread part-way through `track_allocation`: the operations still
to run, the (addr, size) record of its private node, and the value its
node's `next` field holds (written by `load`, published by `store`). -/
structure ThreadSt where
  prog : List InsOp
  node : Nat × Nat
  nextPtr : List (Nat × Nat)
  deriving DecidableEq, Repr

/-- A thread about to start `track_allocation addr size`. -/
def newInsert (addr size : Nat) : ThreadSt :=
  ⟨[InsOp.load, InsOp.store], (addr, size), []⟩

/-- Run one atomic step of a thread against the shared list. -/
def insStep (sh : List (Nat × Nat)) (t : ThreadSt) :
    List (Nat × Nat) × ThreadSt :=
  match t.prog with
  | [] => (sh, t)
  | InsOp.load :: rest => (sh, ⟨rest, t.node, sh⟩)
  | InsOp.store :: rest => (t.node :: t.nextPtr, ⟨rest, t.node, t.nextPtr⟩)

/-- Run two threads under a schedule (`true` steps thread 1, `false`
steps thread 2); returns the final shared list and both thread states. -/
def runSched : List Bool → List (Nat × Nat) → ThreadSt → ThreadSt →
    List (Nat × Nat) × ThreadSt × ThreadSt
  | [], sh, t1, t2 => (sh, t1, t2)
  | true :: rest, sh, t1, t2 =>
    let r := insStep sh t1
    runSched rest r.1 r.2 t2
  | false :: rest, sh, t1, t2 =>
    let r := insStep sh t2
    runSched rest r.1 t1 r.2

/-! ## Concrete environments, used to exercise the definitions -/

/-- A 4-byte file `"abcd"` on hugetlbfs behind descriptor 3 (every other
descriptor fails classification); every kernel operation succeeds; the
anonymous allocation lands at 4096; `read` hands over at most 3 bytes per
call, so the copy needs a short-read retry. -/
def envW : Env where
  f_type := fun fd => if fd = 3 then some HUGETLBFS_MAGIC else none
  st_size := fun fd => if fd = 3 then some 4 else none
  file := fun fd => if fd = 3 then [97, 98, 99, 100] else []
  real_mmap := fun _ _ _ _ _ _ => some 4096
  real_munmap := fun _ _ => 0
  lseekRet := 0
  readSched := fun _ => ReadBehavior.deliver 3
  mprotectRet := 0

/-- Like `envW`, but the `MAP_HUGETLB` attempt fails and the plain
anonymous retry succeeds at 8192. -/
def envHugeFail : Env :=
  { envW with real_mmap := fun _ _ _ f _ _ =>
      if f = anonHugeFlags then none else some 8192 }

/-- Like `envW`, but both anonymous allocation attempts fail. -/
def envAllocFail : Env :=
  { envW with real_mmap := fun _ _ _ _ _ _ => none }

/-- Like `envW`, but the file holds only 2 bytes behind the 4-byte size
report: the copy loop hits end of file before the target length. -/
def envEof : Env :=
  { envW with file := fun _ => [97, 98] }

/-- Like `envW`, but `mprotect` fails. -/
def envMprotFail : Env :=
  { envW with mprotectRet := -1 }

/-! ## Supporting lemmas -/

/-- `untrack_allocation` on a list holding no record for `addr`: size 0,
list handed back unchanged (lines 85-95, fall-through return). -/
theorem untrack_not_found (regs : List (Nat × Nat)) (addr : Nat)
    (h : ∀ p ∈ regs, p.1 ≠ addr) :
    untrack_allocation regs addr = (0, regs) := by
  induction regs with
  | nil => rfl
  | cons p tl ih =>
    obtain ⟨a, s⟩ := p
    have ha : a ≠ addr := h (a, s) (List.mem_cons_self _ _)
    simp only [untrack_allocation, if_neg ha,
      ih (fun q hq => h q (List.mem_cons_of_mem _ hq))]

/-- `untrack_allocation` on a list whose first record for `addr` carries
size `s`: that record is unlinked and `s` returned (lines 86-91). -/
theorem untrack_first_match (addr s : Nat) (post : List (Nat × Nat)) :
    ∀ pre : List (Nat × Nat), (∀ p ∈ pre, p.1 ≠ addr) →
      untrack_allocation (pre ++ (addr, s) :: post) addr = (s, pre ++ post) := by
  intro pre
  induction pre with
  | nil => intro _; simp [untrack_allocation]
  | cons p tl ih =>
    intro h
    obtain ⟨a, t⟩ := p
    have ha : a ≠ addr := h (a, t) (List.mem_cons_self _ _)
    simp only [List.cons_append, untrack_allocation, if_neg ha, List.append_eq,
      ih (fun q hq => h q (List.mem_cons_of_mem _ hq))]

/-- `cleanupLoop` always finishes with the empty list. -/
theorem cleanupLoop_eq_nil : ∀ l : List (Nat × Nat), cleanupLoop l = []
  | [] => rfl
  | _ :: rest => cleanupLoop_eq_nil rest

/-- Unfolding equation of `copyLoop` in the looping case. -/
theorem copyLoop_step (file : List Nat) (length : Nat)
    (sched : Nat → ReadBehavior) (k total : Nat) (dest : List Nat)
    (h : total < length) :
    copyLoop file length sched k total dest =
      match sched k with
      | ReadBehavior.err => none
      | ReadBehavior.deliver cap =>
        let d := min (min cap (min (length - total) chunk_size))
                   (file.length - total)
        if d = 0 then none
        else copyLoop file length sched (k + 1) (total + d)
               (dest ++ (file.drop total).take d) := by
  rw [copyLoop]
  simp only [h, dite_true, dif_pos, dite_eq_ite]

/-- Unfolding equation of `copyLoop` once the target is reached. -/
theorem copyLoop_done (file : List Nat) (length : Nat)
    (sched : Nat → ReadBehavior) (k total : Nat) (dest : List Nat)
    (h : ¬ total < length) :
    copyLoop file length sched k total dest = some dest := by
  rw [copyLoop]
  simp only [h, dite_false, dif_neg, not_false_iff]

/-- Whatever delivery schedule the kernel exhibits, a `copyLoop` run that
reports success has written exactly the file's first `length` bytes.  The
invariant carried through the loop: `dest` holds the first `total` bytes
of the file, and `total` never overshoots `length` (each delivery is at
most the remaining count). -/
theorem copyLoop_correct (file : List Nat) (length : Nat)
    (sched : Nat → ReadBehavior) :
    ∀ fuel k total dest out, length - total ≤ fuel →
      copyLoop file length sched k total dest = some out →
      dest = file.take total → total ≤ length →
      out = file.take length := by
  intro fuel
  induction fuel with
  | zero =>
    intro k total dest out hfuel hrun hdest hle
    have htot : ¬ total < length := by omega
    rw [copyLoop_done file length sched k total dest htot] at hrun
    have heq : total = length := by omega
    cases hrun
    rw [hdest, heq]
  | succ n ih =>
    intro k total dest out hfuel hrun hdest hle
    by_cases htot : total < length
    · rw [copyLoop_step file length sched k total dest htot] at hrun
      cases hb : sched k with
      | err => rw [hb] at hrun; exact absurd hrun (by simp)
      | deliver cap =>
        rw [hb] at hrun
        simp only [] at hrun
        set d := min (min cap (min (length - total) chunk_size))
          (file.length - total) with hdDef
        by_cases hd : d = 0
        · rw [if_pos hd] at hrun; exact absurd hrun (by simp)
        · rw [if_neg hd] at hrun
          have hdpos : 0 < d := Nat.pos_of_ne_zero hd
          have hdle : d ≤ length - total := by
            calc d ≤ min cap (min (length - total) chunk_size) :=
                  Nat.min_le_left _ _
              _ ≤ min (length - total) chunk_size := Nat.min_le_right _ _
              _ ≤ length - total := Nat.min_le_left _ _
          refine ih (k + 1) (total + d) _ out (by omega) hrun ?_ (by omega)
          rw [hdest, ← List.take_add]
    · rw [copyLoop_done file length sched k total dest htot] at hrun
      have heq : total = length := by omega
      cases hrun
      rw [hdest, heq]

/-- When every activation precondition holds, `mmap` is the substitution
engine: allocate anonymously, then populate. -/
theorem mmap_active (env : Env) (regs : List (Nat × Nat))
    (addr length prot flags : Nat) (fd : Int) (offset : Int) (sz : Nat)
    (hfd : 0 ≤ fd) (hfs : is_hugetlbfs_fd env fd = true)
    (hsz : env.st_size fd = some sz) (hoff : offset = 0)
    (hlen : length = sz) :
    mmap env regs addr length prot flags fd offset =
      match allocAnon env length with
      | (none, tr) => ⟨none, regs, tr, none⟩
      | (some mem, tr) => populate env regs length prot fd mem tr := by
  unfold mmap
  rw [if_pos ⟨hfd, hfs⟩, hsz]
  dsimp only
  rw [if_pos ⟨hoff, hlen⟩]

/-- The trace of `populate` extends the allocation trace it is given. -/
theorem populate_calls_prior (env : Env) (regs : List (Nat × Nat))
    (length prot : Nat) (fd : Int) (mem : Nat) (prior : List RealCall) :
    ∃ rest, (populate env regs length prot fd mem prior).calls =
      prior ++ rest := by
  unfold populate
  by_cases hseek : env.lseekRet ≠ 0
  · rw [if_pos hseek]; exact ⟨_, rfl⟩
  · rw [if_neg hseek]
    cases copyLoop (env.file fd) length env.readSched 0 0 [] with
    | none => exact ⟨_, rfl⟩
    | some dest =>
      dsimp only
      by_cases hp : prot &&& PROT_WRITE = 0
      · rw [if_pos hp]; exact ⟨_, rfl⟩
      · rw [if_neg hp]; exact ⟨[], (List.append_nil _).symm⟩

/-- The first kernel action of the substitution engine is always the
anonymous huge-page request: null hint, the requested length, read/write
protection, `MAP_PRIVATE | MAP_ANONYMOUS | MAP_HUGETLB`, descriptor -1,
offset 0. -/
theorem allocAnon_calls_cons (env : Env) (length : Nat) :
    ∃ rest, (allocAnon env length).2 =
      RealCall.rmmap 0 length protRW anonHugeFlags (-1) 0 :: rest := by
  unfold allocAnon
  cases env.real_mmap 0 length protRW anonHugeFlags (-1) 0 <;> exact ⟨_, rfl⟩

/-- The caller's protection influences neither the returned value, nor
the registry, nor the synthesized region's address and bytes — only the
final protection of the region; the prior trace is free. -/
theorem populate_prot_independent (env : Env) (regs : List (Nat × Nat))
    (length prot prot2 : Nat) (fd : Int) (mem : Nat)
    (prior prior2 : List RealCall) :
    (populate env regs length prot fd mem prior).ret =
      (populate env regs length prot2 fd mem prior2).ret ∧
    (populate env regs length prot fd mem prior).registry =
      (populate env regs length prot2 fd mem prior2).registry ∧
    ((populate env regs length prot fd mem prior).region.map
        (fun r => (r.1, r.2.1))) =
      ((populate env regs length prot2 fd mem prior2).region.map
        (fun r => (r.1, r.2.1))) := by
  unfold populate
  cases hcl : copyLoop (env.file fd) length env.readSched 0 0 [] with
  | none =>
    by_cases hseek : env.lseekRet ≠ 0 <;> simp [hseek, hcl]
  | some dest =>
    by_cases hseek : env.lseekRet ≠ 0
    · simp [hseek]
    · by_cases hp : prot &&& PROT_WRITE = 0 <;>
        by_cases hp2 : prot2 &&& PROT_WRITE = 0 <;>
          simp [hseek, hcl, hp, hp2]

/-- A synthesized region's bytes are a successful `copyLoop` run. -/
theorem mmap_region_from_copy (env : Env) (regs : List (Nat × Nat))
    (addr length prot flags : Nat) (fd : Int) (offset : Int)
    (mem fp : Nat) (bytes : List Nat)
    (hreg : (mmap env regs addr length prot flags fd offset).region =
      some (mem, bytes, fp)) :
    copyLoop (env.file fd) length env.readSched 0 0 [] = some bytes := by
  unfold mmap at hreg
  by_cases hc : 0 ≤ fd ∧ is_hugetlbfs_fd env fd = true
  · rw [if_pos hc] at hreg
    cases hsz : env.st_size fd with
    | none => rw [hsz] at hreg; cases hreg
    | some sz =>
      rw [hsz] at hreg
      dsimp only at hreg
      by_cases hact : offset = 0 ∧ length = sz
      · rw [if_pos hact] at hreg
        cases halloc : allocAnon env length with
        | mk o tr =>
          rw [halloc] at hreg
          cases o with
          | none => cases hreg
          | some m =>
            dsimp only at hreg
            unfold populate at hreg
            by_cases hseek : env.lseekRet ≠ 0
            · rw [if_pos hseek] at hreg; cases hreg
            · rw [if_neg hseek] at hreg
              cases hcopy : copyLoop (env.file fd) length env.readSched
                  0 0 [] with
              | none => rw [hcopy] at hreg; cases hreg
              | some dest =>
                rw [hcopy] at hreg
                dsimp only at hreg
                by_cases hp : prot &&& PROT_WRITE = 0
                · rw [if_pos hp] at hreg
                  dsimp only at hreg
                  simp only [Option.some.injEq, Prod.mk.injEq] at hreg
                  obtain ⟨-, hb, -⟩ := hreg
                  rw [hb]
                · rw [if_neg hp] at hreg
                  dsimp only at hreg
                  simp only [Option.some.injEq, Prod.mk.injEq] at hreg
                  obtain ⟨-, hb, -⟩ := hreg
                  rw [hb]
      · rw [if_neg hact] at hreg; cases hreg
  · rw [if_neg hc] at hreg; cases hreg

/-- Registry sizes are positive in every reachable state: a record is
only ever inserted by `mmap` as `(mem, length)` after `real_mmap`
produced `mem` for `length` bytes, and POSIX `mmap` fails on a
zero-length request (hypothesis `hzero`), so `length` is positive.  This
justifies reading "the address is tracked" as "tracked with a positive
size" in the `munmap` routing claim: the code distinguishes the two
routes by `tracked_size > 0`. -/
theorem mmap_registry_sizes_positive (env : Env) (regs : List (Nat × Nat))
    (addr length prot flags : Nat) (fd : Int) (offset : Int)
    (hzero : ∀ p f, env.real_mmap 0 0 p f (-1) 0 = none)
    (hregs : ∀ p ∈ regs, 0 < p.2) :
    ∀ p ∈ (mmap env regs addr length prot flags fd offset).registry,
      0 < p.2 := by
  unfold mmap
  by_cases hc : 0 ≤ fd ∧ is_hugetlbfs_fd env fd = true
  · rw [if_pos hc]
    cases hsz : env.st_size fd with
    | none => simpa [passthrough] using hregs
    | some sz =>
      dsimp only
      by_cases hact : offset = 0 ∧ length = sz
      · rw [if_pos hact]
        by_cases hlen : length = 0
        · subst hlen
          simp only [allocAnon, hzero]
          exact hregs
        · cases halloc : allocAnon env length with
          | mk o tr =>
            cases o with
            | none => exact hregs
            | some mem =>
              simp only [populate]
              by_cases hseek : env.lseekRet ≠ 0
              · rw [if_pos hseek]; exact hregs
              · rw [if_neg hseek]
                cases hcopy : copyLoop (env.file fd) length env.readSched
                    0 0 [] with
                | none => exact hregs
                | some dest =>
                  dsimp only
                  by_cases hp : prot &&& PROT_WRITE = 0
                  · rw [if_pos hp]
                    intro p hp2
                    rcases List.mem_cons.mp hp2 with h | h
                    · subst h; exact Nat.pos_of_ne_zero hlen
                    · exact hregs p h
                  · rw [if_neg hp]
                    intro p hp2
                    rcases List.mem_cons.mp hp2 with h | h
                    · subst h; exact Nat.pos_of_ne_zero hlen
                    · exact hregs p h
      · rw [if_neg hact]; simpa [passthrough] using hregs
  · rw [if_neg hc]; simpa [passthrough] using hregs

/-! ## Claim theorems -/

/-- **C2.** Every `munmap` call whose address is tracked in the registry
(the registry only ever holds the positive true lengths of live
synthesized regions, see `mmap_registry_sizes_positive`) invokes the real
unmap primitive with the registry's recorded size — the caller-supplied
length is ignored — and unlinks the record; every call whose address is
not tracked passes the caller's address and length through unchanged and
leaves the registry as it was. -/
theorem munmap_routes_by_registry (env : Env)
    (regs pre post : List (Nat × Nat)) (addr s length : Nat) :
    (regs = pre ++ (addr, s) :: post → (∀ p ∈ pre, p.1 ≠ addr) → 0 < s →
      munmap env regs addr length =
        ⟨env.real_munmap addr s, pre ++ post, [RealCall.rmunmap addr s]⟩)
  ∧ ((∀ p ∈ regs, p.1 ≠ addr) →
      munmap env regs addr length =
        ⟨env.real_munmap addr length, regs, [RealCall.rmunmap addr length]⟩) := by
  constructor
  · rintro rfl hpre hs
    unfold munmap
    rw [untrack_first_match addr s post pre hpre]
    simp [hs]
  · intro hnone
    unfold munmap
    rw [untrack_not_found regs addr hnone]
    simp

/-- **C2 witness.** A registry holding `(4096, 4)` behind a head record:
deallocating 4096 with the wrong length 999 releases 4 bytes and drops
the record; deallocating untracked 4096 passes 999 through. -/
theorem munmap_routes_by_registry_witness :
    munmap envW [(7, 1), (4096, 4)] 4096 999 =
      ⟨0, [(7, 1)], [RealCall.rmunmap 4096 4]⟩ ∧
    munmap envW [(7, 1)] 4096 999 =
      ⟨0, [(7, 1)], [RealCall.rmunmap 4096 999]⟩ := by
  constructor
  · exact (munmap_routes_by_registry envW [(7, 1), (4096, 4)] [(7, 1)] []
      4096 4 999).1 rfl (by decide) (by decide)
  · exact (munmap_routes_by_registry envW [(7, 1)] [] [] 4096 4 999).2
      (by decide)

/-- **C8.** The spec requires `track_allocation` / `untrack_allocation` /
the drain to be mutually exclusive under concurrent access, but the code
takes no lock: `track_allocation` is the unsynchronized pair
(load of the shared head into `alloc->next`, store of the node as the new
head).  Interleaving two calls as load₁ load₂ store₁ store₂ makes thread
2's store overwrite thread 1's: both threads run to completion, yet the
record `(1, 10)` has vanished from the list, which no serial order allows
— the serial schedule keeps both records. -/
theorem track_allocation_race_loses_record :
    (runSched [true, false, true, false] []
        (newInsert 1 10) (newInsert 2 20)).1 = [(2, 20)] ∧
    (1, 10) ∉ (runSched [true, false, true, false] []
        (newInsert 1 10) (newInsert 2 20)).1 ∧
    (runSched [true, false, true, false] []
        (newInsert 1 10) (newInsert 2 20)).2.1.prog = [] ∧
    (runSched [true, false, true, false] []
        (newInsert 1 10) (newInsert 2 20)).2.2.prog = [] ∧
    (runSched [true, true, false, false] []
        (newInsert 1 10) (newInsert 2 20)).1 = [(2, 20), (1, 10)] := by
  decide

/-- **C10.** The library-detachment destructor drains every remaining
registry record, leaving the registry empty; the bound primitive pair is
untouched and no call to a real primitive (in particular no real unmap of
the still-live regions) is made — the call trace is empty. -/
theorem cleanup_drains_registry (g : Global) :
    (cleanup g).1.allocations = [] ∧ (cleanup g).1.fns = g.fns ∧
    (cleanup g).2 = [] :=
  ⟨cleanupLoop_eq_nil g.allocations, rfl, rfl⟩

/-- **C3.** Whenever any activation precondition fails — negative
descriptor, the classifier reporting non-membership (which includes a
failed `fstatfs`, folded into `is_hugetlbfs_fd = false`), a failed file
size query, a non-zero offset, or a length different from the reported
file size — the request is delegated to the real primitive with the
caller's six original arguments, nothing else is called (the trace is
exactly that one call, so no synthesis), and the registry is unchanged. -/
theorem mmap_precondition_failure_passthrough (env : Env)
    (regs : List (Nat × Nat)) (addr length prot flags : Nat)
    (fd : Int) (offset : Int)
    (h : fd < 0 ∨ is_hugetlbfs_fd env fd = false ∨ env.st_size fd = none ∨
         (∃ sz, env.st_size fd = some sz ∧ (offset ≠ 0 ∨ length ≠ sz))) :
    mmap env regs addr length prot flags fd offset =
      ⟨env.real_mmap addr length prot flags fd offset, regs,
       [RealCall.rmmap addr length prot flags fd offset], none⟩ := by
  unfold mmap
  by_cases hc : 0 ≤ fd ∧ is_hugetlbfs_fd env fd = true
  · rw [if_pos hc]
    rcases h with h | h | h | ⟨sz, hsz, hor⟩
    · exact absurd hc.1 (by omega)
    · rw [h] at hc; exact absurd hc.2 (by simp)
    · rw [h]; rfl
    · rw [hsz]
      dsimp only
      have hno : ¬(offset = 0 ∧ length = sz) := by
        rintro ⟨rfl, rfl⟩
        rcases hor with h2 | h2 <;> exact h2 rfl
      rw [if_neg hno]
      rfl
  · rw [if_neg hc]; rfl

/-- **C3 witness.** A whole-file-sized request on the hugetlbfs
descriptor 3, but at offset 1: passed through untouched. -/
theorem mmap_precondition_failure_passthrough_witness :
    mmap envW [(9, 2)] 7 4 1 2 3 1 =
      ⟨some 4096, [(9, 2)], [RealCall.rmmap 7 4 1 2 3 1], none⟩ :=
  mmap_precondition_failure_passthrough envW [(9, 2)] 7 4 1 2 3 1
    (Or.inr (Or.inr (Or.inr ⟨4, rfl, Or.inl (by decide)⟩)))

/-- **C7.** `init_functions` writes each cached handle at most once: a
non-null handle is never reassigned (first two conjuncts), a completed
resolution makes every later invocation the identity (third conjunct),
and a null `dlsym` answer for a still-null handle terminates the process
(`none`, modelling `exit(1)`; last two conjuncts). -/
theorem init_functions_write_once (e : FnEnv) (s : FnState) :
    (∀ h s2, s.real_mmap = some h → init_functions e s = some s2 →
        s2.real_mmap = some h)
  ∧ (∀ h s2, s.real_munmap = some h → init_functions e s = some s2 →
        s2.real_munmap = some h)
  ∧ (∀ s2, init_functions e s = some s2 → init_functions e s2 = some s2)
  ∧ (s.real_mmap = none → e.dls_mmap = none → init_functions e s = none)
  ∧ (s.real_munmap = none → e.dls_munmap = none →
        init_functions e s = none) := by
  obtain ⟨sm, su⟩ := s
  obtain ⟨em, eu⟩ := e
  cases sm <;> cases su <;> cases em <;> cases eu <;> simp [init_functions]

/-- **C7 witness.** A state with both handles bound is a fixed point; a
null `dlsym` for an unbound handle is fatal. -/
theorem init_functions_write_once_witness :
    init_functions ⟨none, none⟩ ⟨some 11, some 12⟩ = some ⟨some 11, some 12⟩ ∧
    init_functions ⟨none, some 12⟩ ⟨none, none⟩ = none := by
  constructor
  · exact (init_functions_write_once ⟨none, none⟩ ⟨some 11, some 12⟩).2.2.1
      ⟨some 11, some 12⟩ rfl
  · exact (init_functions_write_once ⟨none, some 12⟩ ⟨none, none⟩).2.2.2.1
      rfl rfl

/-- **C1.** Synthesized-region contents are exact: whenever the mapping
entry point synthesizes a region (a successful whole-file interception —
the region observation is produced on no other path), its bytes over the
full requested length are byte-for-byte the file's first `length` bytes,
under every kernel read schedule; and the copy loop treats any positive
short read as progress: a delivery of `d > 0` bytes (however much smaller
than the request) continues the loop at `total + d` against the remaining
count rather than failing. -/
theorem mmap_synthesized_bytes_exact :
    (∀ (env : Env) (regs : List (Nat × Nat)) (addr length prot flags : Nat)
        (fd : Int) (offset : Int) (mem fp : Nat) (bytes : List Nat),
        (mmap env regs addr length prot flags fd offset).region =
          some (mem, bytes, fp) →
        bytes = (env.file fd).take length)
  ∧ (∀ (file : List Nat) (length : Nat) (sched : Nat → ReadBehavior)
        (k total : Nat) (dest : List Nat) (cap : Nat),
        total < length → sched k = ReadBehavior.deliver cap →
        0 < min (min cap (min (length - total) chunk_size))
              (file.length - total) →
        copyLoop file length sched k total dest =
          copyLoop file length sched (k + 1)
            (total + min (min cap (min (length - total) chunk_size))
              (file.length - total))
            (dest ++ (file.drop total).take
              (min (min cap (min (length - total) chunk_size))
                (file.length - total)))) := by
  constructor
  · intro env regs addr length prot flags fd offset mem fp bytes hreg
    exact copyLoop_correct (env.file fd) length env.readSched length 0 0 []
      bytes (by omega)
      (mmap_region_from_copy env regs addr length prot flags fd offset mem
        fp bytes hreg) rfl (Nat.zero_le _)
  · intro file length sched k total dest cap htot hsched hpos
    rw [copyLoop_step file length sched k total dest htot, hsched]
    dsimp only
    rw [if_neg (Nat.pos_iff_ne_zero.mp hpos)]

/-- **C1 witness.** The 4-byte file `"abcd"` behind descriptor 3, copied
under a 3-bytes-per-call schedule (so the first read is short and the
loop retries with remaining count 1): the region holds the file. -/
theorem mmap_synthesized_bytes_exact_witness :
    (mmap envW [] 0 4 1 2 3 0).region = some (4096, [97, 98, 99, 100], 1) ∧
    [97, 98, 99, 100] = (envW.file 3).take 4 := by
  have hreg : (mmap envW [] 0 4 1 2 3 0).region =
      some (4096, [97, 98, 99, 100], 1) := by
    rw [mmap_active envW [] 0 4 1 2 3 0 4 (by decide) rfl rfl rfl rfl]
    have hcopy : copyLoop [97, 98, 99, 100] 4
        (fun _ => ReadBehavior.deliver 3) 0 0 [] =
        some [97, 98, 99, 100] := by
      simp [copyLoop.eq_def, chunk_size]
    simp [allocAnon, populate, envW, hcopy, PROT_WRITE, track_allocation]
  exact ⟨hreg, mmap_synthesized_bytes_exact.1 envW [] 0 4 1 2 3 0 4096 1
    [97, 98, 99, 100] hreg⟩

/-- **C4.** Every failure inside the substitution engine after the
anonymous region `mem` was allocated — seek failure, or a read error or
premature zero-byte read making the copy fail — releases the region by
calling the real unmap primitive on `mem` with the full length, leaves
the registry exactly as it was (no entry created), synthesizes no region,
and reports `MAP_FAILED` (`none`). -/
theorem mmap_populate_failure_cleanup (env : Env) (regs : List (Nat × Nat))
    (addr length prot flags : Nat) (fd : Int) (offset : Int) (sz mem : Nat)
    (hfd : 0 ≤ fd) (hfs : is_hugetlbfs_fd env fd = true)
    (hsz : env.st_size fd = some sz) (hoff : offset = 0) (hlen : length = sz)
    (hmem : (allocAnon env length).1 = some mem)
    (hfail : env.lseekRet ≠ 0 ∨
      copyLoop (env.file fd) length env.readSched 0 0 [] = none) :
    mmap env regs addr length prot flags fd offset =
      ⟨none, regs, (allocAnon env length).2 ++ [RealCall.rmunmap mem length],
       none⟩ := by
  rw [mmap_active env regs addr length prot flags fd offset sz hfd hfs hsz
    hoff hlen]
  cases halloc : allocAnon env length with
  | mk o tr =>
    rw [halloc] at hmem
    dsimp only at hmem
    subst hmem
    dsimp only
    unfold populate
    by_cases hseek : env.lseekRet ≠ 0
    · rw [if_pos hseek]
    · rw [if_neg hseek]
      rcases hfail with hf | hf
      · exact absurd hf hseek
      · rw [hf]

/-- **C4 witness.** The size query reports 4 bytes but the file holds
only 2: the copy hits end of file, the 4096 region is torn down with the
real unmap primitive, no registry entry appears, and `MAP_FAILED` is
returned. -/
theorem mmap_populate_failure_cleanup_witness :
    mmap envEof [] 0 4 1 2 3 0 =
      ⟨none, [], [RealCall.rmmap 0 4 protRW anonHugeFlags (-1) 0,
        RealCall.rmunmap 4096 4], none⟩ := by
  have hcopy : copyLoop (envEof.file 3) 4 envEof.readSched 0 0 [] = none := by
    simp [envEof, envW, copyLoop.eq_def, chunk_size]
  exact mmap_populate_failure_cleanup envEof [] 0 4 1 2 3 0 4 4096
    (by decide) rfl rfl rfl rfl rfl (Or.inr hcopy)

/-- **C5.** Under activation, when the huge-page allocation fails the
engine retries with a plain `MAP_PRIVATE | MAP_ANONYMOUS` allocation of
the same length and read/write permission (the retry call appears in the
trace); if the retry also fails, the entry point returns the native
failure sentinel (`none`) with the registry untouched — a normal error
return, not a process termination (contrast `init_functions`, whose
failure is modelled by `none : Option FnState`, i.e. `exit(1)`). -/
theorem mmap_hugetlb_fallback (env : Env) (regs : List (Nat × Nat))
    (addr length prot flags : Nat) (fd : Int) (offset : Int) (sz : Nat)
    (hfd : 0 ≤ fd) (hfs : is_hugetlbfs_fd env fd = true)
    (hsz : env.st_size fd = some sz) (hoff : offset = 0) (hlen : length = sz)
    (hhuge : env.real_mmap 0 length protRW anonHugeFlags (-1) 0 = none) :
    RealCall.rmmap 0 length protRW anonFlags (-1) 0 ∈
      (mmap env regs addr length prot flags fd offset).calls ∧
    (env.real_mmap 0 length protRW anonFlags (-1) 0 = none →
      mmap env regs addr length prot flags fd offset =
        ⟨none, regs,
         [RealCall.rmmap 0 length protRW anonHugeFlags (-1) 0,
          RealCall.rmmap 0 length protRW anonFlags (-1) 0], none⟩) := by
  rw [mmap_active env regs addr length prot flags fd offset sz hfd hfs hsz
    hoff hlen]
  unfold allocAnon
  rw [hhuge]
  dsimp only
  generalize env.real_mmap 0 length protRW anonFlags (-1) 0 = pl
  cases pl with
  | none =>
    dsimp only
    exact ⟨by simp, fun _ => rfl⟩
  | some mem =>
    dsimp only
    constructor
    · obtain ⟨rest, hr⟩ := populate_calls_prior env regs length prot fd mem
        [RealCall.rmmap 0 length protRW anonHugeFlags (-1) 0,
         RealCall.rmmap 0 length protRW anonFlags (-1) 0]
      rw [hr]
      exact List.mem_append_left _ (by simp)
    · intro hno
      cases hno

/-- **C5 witness.** With the huge-page attempt failing and the plain
retry landing at 8192, the retry call is traced; with both attempts
failing, the call returns `MAP_FAILED` after the two attempts. -/
theorem mmap_hugetlb_fallback_witness :
    RealCall.rmmap 0 4 protRW anonFlags (-1) 0 ∈
      (mmap envHugeFail [] 0 4 1 2 3 0).calls ∧
    mmap envAllocFail [] 0 4 1 2 3 0 =
      ⟨none, [], [RealCall.rmmap 0 4 protRW anonHugeFlags (-1) 0,
        RealCall.rmmap 0 4 protRW anonFlags (-1) 0], none⟩ := by
  constructor
  · exact (mmap_hugetlb_fallback envHugeFail [] 0 4 1 2 3 0 4 (by decide)
      rfl rfl rfl rfl rfl).1
  · exact (mmap_hugetlb_fallback envAllocFail [] 0 4 1 2 3 0 4 (by decide)
      rfl rfl rfl rfl rfl).2 rfl

/-- **C6.** After the full length has been copied, when the requested
protection lacks write access, `mprotect` is invoked with exactly the
requested protection (final protection `prot` when it succeeds, the
copy's read/write protection when it fails), and in either case — in
particular when `mprotect` fails, `env.mprotectRet ≠ 0` — the allocation
is recorded in the registry and the region's address returned as
success. -/
theorem mmap_protection_narrowing (env : Env) (regs : List (Nat × Nat))
    (addr length prot flags : Nat) (fd : Int) (offset : Int) (sz mem : Nat)
    (dest : List Nat)
    (hfd : 0 ≤ fd) (hfs : is_hugetlbfs_fd env fd = true)
    (hsz : env.st_size fd = some sz) (hoff : offset = 0) (hlen : length = sz)
    (hmem : (allocAnon env length).1 = some mem)
    (hseek : env.lseekRet = 0)
    (hcopy : copyLoop (env.file fd) length env.readSched 0 0 [] = some dest)
    (hprot : prot &&& PROT_WRITE = 0) :
    mmap env regs addr length prot flags fd offset =
      ⟨some mem, (mem, length) :: regs,
       (allocAnon env length).2 ++ [RealCall.mprot mem length prot],
       some (mem, dest, if env.mprotectRet = 0 then prot else protRW)⟩ := by
  rw [mmap_active env regs addr length prot flags fd offset sz hfd hfs hsz
    hoff hlen]
  cases halloc : allocAnon env length with
  | mk o tr =>
    rw [halloc] at hmem
    dsimp only at hmem
    subst hmem
    dsimp only
    unfold populate
    rw [if_neg (by simp [hseek]), hcopy]
    dsimp only
    rw [if_pos hprot]
    rfl

/-- **C6 witness.** A read-only (`PROT_READ`) request: `mprotect` is
called with protection 1 and the final region protection is 1; with
`mprotect` failing, the allocation is still recorded, the address still
returned, and the region stays read/write. -/
theorem mmap_protection_narrowing_witness :
    mmap envW [] 0 4 1 2 3 0 =
      ⟨some 4096, [(4096, 4)],
       [RealCall.rmmap 0 4 protRW anonHugeFlags (-1) 0,
        RealCall.mprot 4096 4 1], some (4096, [97, 98, 99, 100], 1)⟩ ∧
    mmap envMprotFail [] 0 4 1 2 3 0 =
      ⟨some 4096, [(4096, 4)],
       [RealCall.rmmap 0 4 protRW anonHugeFlags (-1) 0,
        RealCall.mprot 4096 4 1],
       some (4096, [97, 98, 99, 100], protRW)⟩ := by
  have hcopy : copyLoop (envW.file 3) 4 envW.readSched 0 0 [] =
      some [97, 98, 99, 100] := by
    simp [envW, copyLoop.eq_def, chunk_size]
  constructor
  · exact mmap_protection_narrowing envW [] 0 4 1 2 3 0 4 4096
      [97, 98, 99, 100] (by decide) rfl rfl rfl rfl rfl rfl hcopy (by decide)
  · exact mmap_protection_narrowing envMprotFail [] 0 4 1 2 3 0 4 4096
      [97, 98, 99, 100] (by decide) rfl rfl rfl rfl rfl rfl hcopy (by decide)

/-- **C9.** Activation depends only on the descriptor, offset and length:
under activation the engine's first kernel action is always the anonymous
huge-page request — null address hint (kernel-chosen placement),
read/write permission for the copy, `MAP_PRIVATE | MAP_ANONYMOUS |
MAP_HUGETLB`, descriptor -1, offset 0 — whatever the caller's hint,
protection and flags (shared mappings included); and the returned value,
the resulting registry, and the synthesized region's address and bytes
are invariant under changing hint, protection and flags (the caller's
protection influences only the final `mprotect` narrowing, never the
activation decision or the snapshot). -/
theorem mmap_activation_ignores_prot_flags_hint (env : Env)
    (regs : List (Nat × Nat)) (length : Nat) (fd : Int) (offset : Int)
    (sz addr addr2 prot prot2 flags flags2 : Nat)
    (hfd : 0 ≤ fd) (hfs : is_hugetlbfs_fd env fd = true)
    (hsz : env.st_size fd = some sz) (hoff : offset = 0)
    (hlen : length = sz) :
    (mmap env regs addr length prot flags fd offset).calls.head? =
      some (RealCall.rmmap 0 length protRW anonHugeFlags (-1) 0) ∧
    (mmap env regs addr length prot flags fd offset).ret =
      (mmap env regs addr2 length prot2 flags2 fd offset).ret ∧
    (mmap env regs addr length prot flags fd offset).registry =
      (mmap env regs addr2 length prot2 flags2 fd offset).registry ∧
    (mmap env regs addr length prot flags fd offset).region.map
        (fun r => (r.1, r.2.1)) =
      (mmap env regs addr2 length prot2 flags2 fd offset).region.map
        (fun r => (r.1, r.2.1)) := by
  rw [mmap_active env regs addr length prot flags fd offset sz hfd hfs hsz
      hoff hlen,
    mmap_active env regs addr2 length prot2 flags2 fd offset sz hfd hfs hsz
      hoff hlen]
  obtain ⟨rest, hcons⟩ := allocAnon_calls_cons env length
  cases halloc : allocAnon env length with
  | mk o tr =>
    rw [halloc] at hcons
    dsimp only at hcons
    cases o with
    | none =>
      dsimp only
      exact ⟨by rw [hcons]; rfl, rfl, rfl, rfl⟩
    | some mem =>
      dsimp only
      refine ⟨?_,
        populate_prot_independent env regs length prot prot2 fd mem tr tr⟩
      obtain ⟨r2, hr2⟩ := populate_calls_prior env regs length prot fd mem tr
      rw [hr2, hcons]
      rfl

/-- **C9 witness.** Two whole-file requests on descriptor 3 differing in
hint (0 vs 77), protection (1 vs 3) and flags (2 vs 33): same first
kernel action, same return, same registry, same region snapshot. -/
theorem mmap_activation_ignores_prot_flags_hint_witness :
    (mmap envW [] 0 4 1 2 3 0).calls.head? =
      some (RealCall.rmmap 0 4 protRW anonHugeFlags (-1) 0) ∧
    (mmap envW [] 0 4 1 2 3 0).ret = (mmap envW [] 77 4 3 33 3 0).ret ∧
    (mmap envW [] 0 4 1 2 3 0).registry =
      (mmap envW [] 77 4 3 33 3 0).registry ∧
    (mmap envW [] 0 4 1 2 3 0).region.map (fun r => (r.1, r.2.1)) =
      (mmap envW [] 77 4 3 33 3 0).region.map (fun r => (r.1, r.2.1)) :=
  mmap_activation_ignores_prot_flags_hint envW [] 4 3 0 4 0 77 1 3 2 33
    (by decide) rfl rfl rfl rfl

end HugepageWrapper
